import Mathlib

/-!
Shallow embedding of the streaming session / run orchestration layer of
`src/routes/llm.js` (the LLM routing module): run-status helpers, the
run-conflict error parser, bounded usage reconciliation, pre-submission run
cancellation, the chat-route conflict retry, the route-level ownership checks,
and the SSE stream relay `handleStream` with its tool-call accumulator.

JavaScript strings that may be absent (`undefined`) are modelled as `String`
with `""` for the absent/falsy case, matching JS truthiness for strings;
possibly-absent objects are modelled with `Option`; numeric fields that default
through `|| 0` are modelled as `Nat`.
-/

namespace LlmRoutes

/-- `isRunActive(status)` from `src/routes/llm.js`: a run is active when its
status is `queued`, `in_progress` or `requires_action`. -/
def isRunActive (status : String) : Bool :=
  status == "queued" || status == "in_progress" || status == "requires_action"

/-- Anchored match of the regex `/while a run (run_[A-Za-z0-9]+) is active\.?/`
at the head of `cs`.  The literal text `"while a run run_"` must occur, then a
maximal nonempty run of ASCII alphanumerics (greedy `[A-Za-z0-9]+`; shorter
backtracked matches are impossible since the next required character is a
space, which is not alphanumeric), then the literal `" is active"`; the
trailing `\.?` is optional and constrains nothing. -/
def matchRunConflictAt (cs : List Char) : Option String :=
  let lit := "while a run run_".toList
  if lit.isPrefixOf cs then
    let rest := cs.drop lit.length
    let alnums := rest.takeWhile Char.isAlphanum
    let rest2 := rest.dropWhile Char.isAlphanum
    if alnums.isEmpty then none
    else if (" is active".toList).isPrefixOf rest2 then
      some (String.mk ("run_".toList ++ alnums))
    else none
  else none

/-- Leftmost-match scan for the run-conflict pattern: JS `String.match` tries
each start position from the left. -/
def scanRunConflict : List Char → Option String
  | [] => none
  | c :: cs =>
    match matchRunConflictAt (c :: cs) with
    | some r => some r
    | none => scanRunConflict cs

/-- `extractActiveRunIdFromErrorMessage(msg)` from `src/routes/llm.js`
(lines 477-484): returns the first capture of
`/while a run (run_[A-Za-z0-9]+) is active\.?/` or `null`; non-string input
(modelled by `none`) yields `null`. -/
def extractActiveRunIdFromErrorMessage (msg : Option String) : Option String :=
  match msg with
  | none => none
  | some s => scanRunConflict s.toList

example :
    extractActiveRunIdFromErrorMessage
      (some "Cannot add messages to thread while a run run_abc123 is active.")
      = some "run_abc123" := by decide

example : extractActiveRunIdFromErrorMessage (some "some other error") = none := by decide

example : extractActiveRunIdFromErrorMessage
    (some "while a run run_x9 is pending") = none := by decide

example : isRunActive "requires_action" = true := by decide

example : isRunActive "cancelled" = false := by decide

/-! ## Usage reconciliation: `retrieveRunUsageWithRetry` (lines 486-531) -/

/-- The `usage` object of a retrieved run; `prompt_tokens`/`completion_tokens`
default through `|| 0`, so absent numeric fields are modelled as `0`. -/
structure RunUsage where
  prompt_tokens : Nat
  completion_tokens : Nat
deriving DecidableEq, Repr

/-- The result of one `client.beta.threads.runs.retrieve` call; a throwing
call (caught, `lastRun = null`) is modelled by `none` at the call site. -/
structure RetrievedRun where
  status : String
  usage : Option RunUsage
deriving DecidableEq, Repr

/-- The `{inputTokens, outputTokens}` record returned on success. -/
structure UsageTokens where
  inputTokens : Nat
  outputTokens : Nat
deriving DecidableEq, Repr

/-- `usage && (usage.prompt_tokens || usage.completion_tokens)`: a usable usage
object carries a non-zero token figure. -/
def usageNonZero (u : RunUsage) : Bool :=
  u.prompt_tokens != 0 || u.completion_tokens != 0

/-- Trace of one reconciliation: the usage returned (`none` = `null`), the
number of `retrieve` calls performed, and the number of 250 ms sleeps. -/
structure ReconcileOutcome where
  usage : Option UsageTokens
  retrieves : Nat
  sleeps : Nat
deriving DecidableEq, Repr

/-- The `for (let i = 0; i < 6; i++)` body of `retrieveRunUsageWithRetry`.
`polls i` is the outcome of the `retrieve` call on iteration `i` (`none` when
the call throws).  Early returns: usable non-zero usage is returned at once;
an active (`queued`/`in_progress`/`requires_action`) status returns `null` at
once; otherwise the loop sleeps 250 ms (only when `i < 5`, i.e. when fuel
remains) and continues.  Exhausting the 6 attempts returns `null`. -/
def retrieveLoop (polls : Nat → Option RetrievedRun) : Nat → Nat → ReconcileOutcome
  | _, 0 => ⟨none, 0, 0⟩
  | i, fuel + 1 =>
    let lastRun := polls i
    let active :=
      match lastRun with
      | some run => isRunActive run.status
      | none => false
    match lastRun.bind (fun run => run.usage) with
    | some u =>
      if usageNonZero u then ⟨some ⟨u.prompt_tokens, u.completion_tokens⟩, 1, 0⟩
      else if active then ⟨none, 1, 0⟩
      else
        let p := retrieveLoop polls (i + 1) fuel
        ⟨p.usage, p.retrieves + 1, p.sleeps + (if fuel == 0 then 0 else 1)⟩
    | none =>
      if active then ⟨none, 1, 0⟩
      else
        let p := retrieveLoop polls (i + 1) fuel
        ⟨p.usage, p.retrieves + 1, p.sleeps + (if fuel == 0 then 0 else 1)⟩

/-- `retrieveRunUsageWithRetry(client, threadId, runId)` (lines 486-531):
bails out immediately when the client cannot retrieve runs or `runId` is
falsy (empty); otherwise runs the 6-attempt poll loop. -/
def retrieveRunUsageWithRetry (hasRetrieve : Bool) (runId : String)
    (polls : Nat → Option RetrievedRun) : ReconcileOutcome :=
  if !hasRetrieve || runId == "" then ⟨none, 0, 0⟩
  else retrieveLoop polls 0 6

example :
    retrieveRunUsageWithRetry true "run_1"
      (fun _ => some ⟨"completed", some ⟨3, 4⟩⟩) = ⟨some ⟨3, 4⟩, 1, 0⟩ := by decide

example :
    retrieveRunUsageWithRetry true "run_1"
      (fun _ => some ⟨"in_progress", none⟩) = ⟨none, 1, 0⟩ := by decide

example :
    retrieveRunUsageWithRetry true "run_1"
      (fun _ => some ⟨"completed", none⟩) = ⟨none, 6, 5⟩ := by decide

example :
    retrieveRunUsageWithRetry true "" (fun _ => some ⟨"completed", some ⟨3, 4⟩⟩)
      = ⟨none, 0, 0⟩ := by decide

/-! ## Pre-submission cancellation: `cancelActiveRuns` (lines 536-568) -/

/-- One entry of `runs.data` as returned by `runs.list`; a missing `id`
(`!r?.id`) is modelled by `""`. -/
structure ListedRun where
  id : String
  status : String
deriving DecidableEq, Repr

/-- Observable provider actions performed by `cancelActiveRuns`. -/
inductive CancelAction where
  | cancel (id : String)
  | retrieve (id : String)
  | sleep (ms : Nat)
deriving DecidableEq, Repr

/-- The inner `for (let i = 0; i < 10; i++)` poll after cancelling run `id`:
retrieve the run, stop as soon as it is no longer active, otherwise sleep
250 ms and try again; give up after the fuel (10 attempts) is exhausted.
`statusAt i` is the status reported by the retrieve on iteration `i`. -/
def cancelPollLoop (statusAt : Nat → String) (id : String) : Nat → Nat → List CancelAction
  | _, 0 => []
  | i, fuel + 1 =>
    CancelAction.retrieve id ::
      (if isRunActive (statusAt i) then
        CancelAction.sleep 250 :: cancelPollLoop statusAt id (i + 1) fuel
      else [])

/-- The provider client surface used by `cancelActiveRuns`: capability flags
for the optional-chained accesses, the `runs.data` returned by the single
`runs.list(threadId, { limit: 10 })` call, and the per-run poll statuses. -/
structure CancelClient where
  hasList : Bool
  hasCancel : Bool
  hasRetrieve : Bool
  listData : List ListedRun
  retrieveStatus : String → Nat → String

/-- The loop body of `cancelActiveRuns` for one listed run `r`: skipped when
`r.id` is falsy, equals the exclusion id, the run is not active, or the client
cannot cancel; otherwise cancel it and (when the client can retrieve) poll up
to 10 times for it to leave the active states. -/
def cancelRunSteps (client : CancelClient) (excludeRunId : Option String)
    (r : ListedRun) : List CancelAction :=
  if r.id == "" then []
  else if excludeRunId == some r.id then []
  else if !isRunActive r.status then []
  else if !client.hasCancel then []
  else
    CancelAction.cancel r.id ::
      (if client.hasRetrieve then cancelPollLoop (client.retrieveStatus r.id) r.id 0 10
       else [])

/-- `cancelActiveRuns(client, threadId, excludeRunId)` (lines 536-568): no-op
without a `runs.list`; otherwise processes each listed run in order.  The
`excludeRunId` argument is `none` for the chat route (no third argument) and
`some runId` for the tool-outputs route. -/
def cancelActiveRuns (client : CancelClient) (excludeRunId : Option String) :
    List CancelAction :=
  if !client.hasList then []
  else (client.listData).flatMap (cancelRunSteps client excludeRunId)

/-- The `limit` passed to `runs.list(threadId, { limit: 10 })` at line 541. -/
def runsListLimit : Nat := 10

/-- `cancelActiveRuns` seen against a thread whose full (provider-side) run
list is `allRuns`: the provider returns at most `limit = 10` entries for the
single list call, modelled as the first `runsListLimit` runs. -/
def cancelActiveRunsOn (allRuns : List ListedRun) (hasCancel hasRetrieve : Bool)
    (retrieveStatus : String → Nat → String) (excludeRunId : Option String) :
    List CancelAction :=
  cancelActiveRuns
    ⟨true, hasCancel, hasRetrieve, allRuns.take runsListLimit, retrieveStatus⟩
    excludeRunId

example :
    cancelActiveRuns
      ⟨true, true, true, [⟨"run_a", "in_progress"⟩, ⟨"run_b", "completed"⟩],
        fun _ _ => "cancelled"⟩ none
      = [CancelAction.cancel "run_a", CancelAction.retrieve "run_a"] := by decide

example :
    cancelActiveRuns
      ⟨true, true, true, [⟨"run_a", "queued"⟩], fun _ _ => "queued"⟩ (some "run_a")
      = [] := by decide

/-! ## Chat-route message append with single conflict retry (lines 860-880) -/

/-- Coordinator-level steps of the chat route append phase. -/
inductive ChatStep where
  | cancelAll
  | appendMessage
  | cancelRun (id : String)
deriving DecidableEq, Repr

/-- Outcome of one `client.beta.threads.messages.create` call: success, or a
thrown error whose `e?.message` is `msg` (`none` when the message is not a
string). -/
inductive AppendOutcome where
  | ok
  | fail (msg : Option String)
deriving DecidableEq, Repr

/-- The chat route append phase (lines 860-880): `cancelActiveRuns` then the
first `messages.create` attempt (`a1`); on a thrown conflict whose message
names an active run id and with a cancel-capable client, cancel that run,
re-run `cancelActiveRuns`, and retry the append exactly once (`a2`) — a
failure of the retry, like a non-conflict first failure, propagates to the
route outer catch as the fatal error of the request.  Returns the step trace
and the propagated error message, if any. -/
def chatAppendTrace (a1 a2 : AppendOutcome) (canCancel : Bool) :
    List ChatStep × Option (Option String) :=
  let pre : List ChatStep := [ChatStep.cancelAll, ChatStep.appendMessage]
  match a1 with
  | AppendOutcome.ok => (pre, none)
  | AppendOutcome.fail m =>
    match extractActiveRunIdFromErrorMessage m, canCancel with
    | some rid, true =>
      let steps := pre ++ [ChatStep.cancelRun rid, ChatStep.cancelAll, ChatStep.appendMessage]
      match a2 with
      | AppendOutcome.ok => (steps, none)
      | AppendOutcome.fail m2 => (steps, some m2)
    | some _, false => (pre, some m)
    | none, _ => (pre, some m)

example :
    chatAppendTrace (AppendOutcome.fail (some "while a run run_z is active"))
        (AppendOutcome.ok) true
      = ([ChatStep.cancelAll, ChatStep.appendMessage, ChatStep.cancelRun "run_z",
          ChatStep.cancelAll, ChatStep.appendMessage], none) := by decide

example :
    chatAppendTrace (AppendOutcome.fail (some "boom")) AppendOutcome.ok true
      = ([ChatStep.cancelAll, ChatStep.appendMessage], some (some "boom")) := by decide

/-! ## Route-level checks: chat / tool-outputs / session deletion -/

/-- One `activeSessions` entry: `{ client, assistantId, userId, deploymentName }`
(the opaque client is omitted). -/
structure SessionEntry where
  assistantId : String
  userId : Nat
  deploymentName : String
deriving DecidableEq, Repr

/-- Synchronous outcome of a streaming route pre-stream phase, in source
order: 400 on missing body fields, 404 `SESSION_NOT_FOUND`, 403
`UNAUTHORIZED`, or proceed (only then are the SSE headers flushed and the
event stream opened). -/
inductive RoutePre where
  | badRequest
  | notFound
  | unauthorized
  | proceed
deriving DecidableEq, Repr

/-- HTTP status of a pre-stream outcome (`proceed` answers 200 as the SSE
stream). -/
def RoutePre.statusCode : RoutePre → Nat
  | RoutePre.badRequest => 400
  | RoutePre.notFound => 404
  | RoutePre.unauthorized => 403
  | RoutePre.proceed => 200

/-- Whether the pre-stream phase reaches `res.flushHeaders()` — the event
stream is opened only on `proceed`. -/
def RoutePre.streamOpened : RoutePre → Bool
  | RoutePre.proceed => true
  | _ => false

/-- `POST /chat` pre-stream phase (lines 836-858): body checks, session
lookup, ownership check, then SSE setup. -/
def chatPre (threadId message : String) (session : Option SessionEntry)
    (userId : Nat) : RoutePre :=
  if threadId == "" || message == "" then RoutePre.badRequest
  else
    match session with
    | none => RoutePre.notFound
    | some s => if s.userId != userId then RoutePre.unauthorized else RoutePre.proceed

/-- `POST /tool-outputs` pre-stream phase (lines 945-966); `toolOutputs` is
`none` when absent from the body (JS falsy check `!toolOutputs`). -/
def toolOutputsPre (threadId runId : String) (toolOutputs : Option (List String))
    (session : Option SessionEntry) (userId : Nat) : RoutePre :=
  if threadId == "" || runId == "" || toolOutputs.isNone then RoutePre.badRequest
  else
    match session with
    | none => RoutePre.notFound
    | some s => if s.userId != userId then RoutePre.unauthorized else RoutePre.proceed

/-- Outcome of `DELETE /session/:threadId` (lines 1032-1051). -/
inductive DeleteResult where
  | success
  | notFound
deriving DecidableEq, Repr

/-- HTTP status of a deletion outcome. -/
def DeleteResult.statusCode : DeleteResult → Nat
  | DeleteResult.success => 200
  | DeleteResult.notFound => 404

/-- `DELETE /session/:threadId` (lines 1032-1051): the session is removed and
`{success: true}` returned only when it exists *and* is owned by the caller;
every other case — including an existing session owned by someone else —
answers 404 `Session not found`. -/
def deleteSessionRoute (session : Option SessionEntry) (userId : Nat) : DeleteResult :=
  match session with
  | some s => if s.userId == userId then DeleteResult.success else DeleteResult.notFound
  | none => DeleteResult.notFound

example : deleteSessionRoute (some ⟨"asst_1", 1, "gpt"⟩) 2 = DeleteResult.notFound := by decide

example : chatPre "t1" "hi" (some ⟨"asst_1", 1, "gpt"⟩) 2 = RoutePre.unauthorized := by decide

/-! ## Stream relay: `handleStream(stream, res)` (lines 1056-1155) -/

/-- One entry of `data.delta.content`: `{type, text: {value}}`; an absent
`text?.value` is `""`. -/
structure TextContentDelta where
  ctype : String
  textValue : String
deriving DecidableEq, Repr

/-- One fragment of `step_details.tool_calls`: `{index, type, id?, function:
{name?, arguments?}}`.  Absent `id`/`name`/`arguments` are `""` (the source
guards each append with a JS truthiness check, and appending `""` is a
no-op). -/
structure ToolCallFragment where
  index : Nat
  fragType : String
  id : String
  name : String
  arguments : String
deriving DecidableEq, Repr

/-- `data.delta.step_details`: `{type, tool_calls}`. -/
structure StepDetails where
  sdType : String
  tool_calls : List ToolCallFragment
deriving DecidableEq, Repr

/-- `data.delta`: the fields read by the relay. -/
structure EventDelta where
  content : List TextContentDelta
  step_details : Option StepDetails
deriving DecidableEq, Repr

/-- `event.data`: the fields read by the relay.  `id`/`run_id` are `""` when
absent, `lastErrorMessage` models `last_error?.message` (`""` when the error
object or its message is absent/empty, which the source replaces with
`"Run failed"`). -/
structure EventData where
  id : String
  run_id : String
  delta : EventDelta
  usage : Option RunUsage
  lastErrorMessage : String
deriving DecidableEq, Repr

/-- One provider stream event: `{event, data}`. -/
structure StreamEvent where
  event : String
  data : EventData
deriving DecidableEq, Repr

/-- One accumulator slot: `id` / `type` / `function.name` / `function.arguments`
flattened. -/
structure AccToolCall where
  id : String
  ctype : String
  name : String
  arguments : String
deriving DecidableEq, Repr

/-- JS array assignment `toolCalls[i] = v` on a possibly-sparse array: set the
slot, padding missing intermediate slots with `undefined` (`none`). -/
def setSlot : List (Option AccToolCall) → Nat → AccToolCall → List (Option AccToolCall)
  | [], 0, v => [some v]
  | [], n + 1, v => none :: setSlot [] n v
  | _ :: xs, 0, v => some v :: xs
  | x :: xs, n + 1, v => x :: setSlot xs n v

/-- The per-fragment slot update of lines 1085-1094: create the slot on first
sight with `id: tc.id` (empty when absent) and empty name/arguments, then append the name
and argument fragments, then overwrite `id` when the fragment carries one. -/
def fragStep (cur : Option AccToolCall) (tc : ToolCallFragment) : AccToolCall :=
  let c :=
    match cur with
    | some c => c
    | none => { id := tc.id, ctype := "function", name := "", arguments := "" }
  let c := { c with name := c.name ++ tc.name, arguments := c.arguments ++ tc.arguments }
  if tc.id != "" then { c with id := tc.id } else c

/-- Lines 1084-1095: a fragment is applied only when `tc.type` equal to `"function"`;
the slot is located by `tc.index` (never by id). -/
def applyFragment (acc : List (Option AccToolCall)) (tc : ToolCallFragment) :
    List (Option AccToolCall) :=
  if tc.fragType == "function" then
    setSlot acc tc.index (fragStep (acc.getD tc.index none) tc)
  else acc

/-- Frames written to the SSE response (`data: {type: ...}`). -/
inductive Frame where
  | text (content : String)
  | toolCallsMsg (runId : String) (toolCalls : List AccToolCall)
  | done (runId : String)
  | error (error : String)
deriving DecidableEq, Repr

/-- Relay state across the `for await` loop of `handleStream`. -/
structure StreamState where
  runId : String
  toolCalls : List (Option AccToolCall)
  inputTokens : Nat
  outputTokens : Nat
  streamError : Option String
  frames : List Frame
deriving Repr

/-- Lines 1065-1073: capture the run id the first time one is visible, either
as `data.id` of a `thread.run.*` event or as `data.run_id`.  (The source
second branch, guarded by `run_id && !runId` under `runId` truthy, is
unreachable and drops out.) -/
def captureRunId (st : StreamState) (ev : StreamEvent) : StreamState :=
  if st.runId == "" then
    if ev.data.id != "" && ("thread.run.".toList.isPrefixOf ev.event.toList) then
      { st with runId := ev.data.id }
    else if ev.data.run_id != "" then
      { st with runId := ev.data.run_id }
    else st
  else st

/-- The `text` frames written for one event (lines 1075-1079): only a
`thread.message.delta` whose first content entry is a non-empty text delta
writes a frame; this is the only branch of the dispatch that writes. -/
def textFramesOf (ev : StreamEvent) : List Frame :=
  if ev.event == "thread.message.delta" then
    match ev.data.delta.content.head? with
    | some d => if d.ctype == "text" && d.textValue != "" then [Frame.text d.textValue] else []
    | none => []
  else []

/-- The non-writing effects of the event dispatch (lines 1080-1115): tool-call
accumulation for `thread.run.step.delta`, run-id refresh plus inline usage for
`thread.run.requires_action` / `thread.run.completed`, and run-id refresh plus
terminal stream error for `thread.run.failed`.  The branches are mutually
exclusive on `event.event`, so splitting them from the frame write preserves
the source behavior. -/
def dispatchEvent (st : StreamState) (ev : StreamEvent) : StreamState :=
  if ev.event == "thread.run.step.delta" then
    match ev.data.delta.step_details with
    | some sd =>
      if sd.sdType == "tool_calls" then
        { st with toolCalls := sd.tool_calls.foldl applyFragment st.toolCalls }
      else st
    | none => st
  else if ev.event == "thread.run.requires_action" then
    let st := { st with runId := ev.data.id }
    match ev.data.usage with
    | some u => { st with inputTokens := u.prompt_tokens, outputTokens := u.completion_tokens }
    | none => st
  else if ev.event == "thread.run.completed" then
    let st := { st with runId := ev.data.id }
    match ev.data.usage with
    | some u => { st with inputTokens := u.prompt_tokens, outputTokens := u.completion_tokens }
    | none => st
  else if ev.event == "thread.run.failed" then
    { st with runId := ev.data.id,
              streamError :=
                some (if ev.data.lastErrorMessage == "" then "Run failed"
                      else ev.data.lastErrorMessage) }
  else st

/-- One iteration of the `for await (const event of stream)` loop. -/
def processEvent (st : StreamState) (ev : StreamEvent) : StreamState :=
  let st := captureRunId st ev
  let st := { st with frames := st.frames ++ textFramesOf ev }
  dispatchEvent st ev

/-- Relay state before the first event. -/
def initialStreamState : StreamState := ⟨"", [], 0, 0, none, []⟩

/-- Relay state after consuming `events`. -/
def streamStateOf (events : List StreamEvent) : StreamState :=
  events.foldl processEvent initialStreamState

/-- The predicate of `toolCalls.filter(t => t && t.id)` (line 1123) as a
partial map: keep a present slot whose accumulated id is non-empty. -/
def keepFinalized (t : Option AccToolCall) : Option AccToolCall :=
  match t with
  | some c => if c.id != "" then some c else none
  | none => none

/-- `toolCalls.filter(t => t && t.id)` (line 1123): drop empty slots and
accumulated calls whose id is still empty. -/
def finalToolCallsOf (toolCalls : List (Option AccToolCall)) : List AccToolCall :=
  toolCalls.filterMap keepFinalized

/-- The record `handleStream` returns for logging. -/
structure StreamResult where
  runId : String
  inputTokens : Nat
  outputTokens : Nat
  toolCallCount : Nat
  error : Option String
deriving DecidableEq, Repr

/-- Everything written to `res`: the frames, and whether `res.end()` ran. -/
structure StreamOutput where
  frames : List Frame
  ended : Bool
deriving DecidableEq, Repr

/-- `handleStream(stream, res)` over the consumed event prefix `events`.
`fault = none` models the source sequence ending normally: the relay then
writes the `tool_calls` frame when at least one finalized call exists, always
writes the terminal `done` frame with the captured run id, and ends the
response.  `fault = some msg` models the `for await` consumption throwing a
transport fault with message `msg` after `events`: the catch block writes a
terminal `error` frame instead and still ends the response. -/
def handleStream (events : List StreamEvent) (fault : Option String) :
    StreamOutput × StreamResult :=
  let st := streamStateOf events
  match fault with
  | none =>
    let finalToolCalls := finalToolCallsOf st.toolCalls
    let frames := st.frames ++
      (if finalToolCalls.length > 0 then [Frame.toolCallsMsg st.runId finalToolCalls] else []) ++
      [Frame.done st.runId]
    (⟨frames, true⟩,
     ⟨st.runId, st.inputTokens, st.outputTokens, finalToolCalls.length, st.streamError⟩)
  | some msg =>
    (⟨st.frames ++ [Frame.error msg], true⟩,
     ⟨st.runId, st.inputTokens, st.outputTokens, (finalToolCallsOf st.toolCalls).length,
      some msg⟩)

/-- A `thread.run.step.delta` event carrying tool-call fragments. -/
def mkStepDeltaEvent (frags : List ToolCallFragment) : StreamEvent :=
  ⟨"thread.run.step.delta", ⟨"", "", ⟨[], some ⟨"tool_calls", frags⟩⟩, none, ""⟩⟩

/-- A `thread.message.delta` event carrying one text delta. -/
def mkTextDeltaEvent (s : String) : StreamEvent :=
  ⟨"thread.message.delta", ⟨"", "", ⟨[⟨"text", s⟩], none⟩, none, ""⟩⟩

/-- A `thread.run.completed` event with run id and usage. -/
def mkCompletedEvent (rid : String) (usage : Option RunUsage) : StreamEvent :=
  ⟨"thread.run.completed", ⟨rid, "", ⟨[], none⟩, usage, ""⟩⟩

example :
    handleStream [mkTextDeltaEvent "Here", mkTextDeltaEvent " are the files",
        mkCompletedEvent "run_a1" (some ⟨10, 20⟩)] none
      = (⟨[Frame.text "Here", Frame.text " are the files", Frame.done "run_a1"], true⟩,
         ⟨"run_a1", 10, 20, 0, none⟩) := by decide

example :
    handleStream [mkTextDeltaEvent "Hi"] (some "socket hang up")
      = (⟨[Frame.text "Hi", Frame.error "socket hang up"], true⟩,
         ⟨"", 0, 0, 0, some "socket hang up"⟩) := by decide

/-! ## Supporting lemmas -/

/-- Reading back a slot after a JS sparse-array write. -/
lemma getD_setSlot :
    ∀ (acc : List (Option AccToolCall)) (j i : Nat) (v : AccToolCall),
      (setSlot acc j v).getD i none = if i = j then some v else acc.getD i none := by
  intro acc j
  induction j generalizing acc with
  | zero =>
    intro i v
    cases acc <;> cases i <;> simp [setSlot]
  | succ n ih =>
    intro i v
    cases acc with
    | nil =>
      cases i with
      | zero => simp [setSlot]
      | succ m => simpa [setSlot, Nat.succ_inj] using ih [] m v
    | cons x xs =>
      cases i with
      | zero => simp [setSlot]
      | succ m => simpa [setSlot, Nat.succ_inj] using ih xs m v

/-- The per-slot effect of one fragment, observed at index `i`. -/
def slotStep (cur : Option AccToolCall) (tc : ToolCallFragment) : Option AccToolCall :=
  if tc.fragType == "function" then some (fragStep cur tc) else cur

lemma getD_applyFragment (acc : List (Option AccToolCall)) (tc : ToolCallFragment) (i : Nat) :
    (applyFragment acc tc).getD i none =
      if tc.index = i then slotStep (acc.getD i none) tc else acc.getD i none := by
  unfold applyFragment slotStep
  split
  · rw [getD_setSlot]
    rcases eq_or_ne i tc.index with h | h
    · simp [h]
    · simp [h, Ne.symm h]
  · rcases eq_or_ne tc.index i with h | h <;> simp [h]

/-- Accumulation is keyed by index: the slot at `i` after folding a fragment
list is the fold of the per-slot step over just the fragments carrying
index `i`. -/
lemma getD_foldl_applyFragment :
    ∀ (l : List ToolCallFragment) (acc : List (Option AccToolCall)) (i : Nat),
      (l.foldl applyFragment acc).getD i none =
        (l.filter fun tc => tc.index == i).foldl slotStep (acc.getD i none) := by
  intro l
  induction l with
  | nil => intro acc i; rfl
  | cons tc l ih =>
    intro acc i
    rw [List.foldl_cons, ih, getD_applyFragment, List.filter_cons]
    rcases eq_or_ne tc.index i with h | h
    · simp [h]
    · simp [h]

lemma captureRunId_frames (st : StreamState) (ev : StreamEvent) :
    (captureRunId st ev).frames = st.frames := by
  unfold captureRunId
  repeat' split
  all_goals rfl

lemma captureRunId_toolCalls (st : StreamState) (ev : StreamEvent) :
    (captureRunId st ev).toolCalls = st.toolCalls := by
  unfold captureRunId
  repeat' split
  all_goals rfl

lemma dispatchEvent_frames (st : StreamState) (ev : StreamEvent) :
    (dispatchEvent st ev).frames = st.frames := by
  unfold dispatchEvent
  repeat' split
  all_goals rfl

lemma processEvent_frames (st : StreamState) (ev : StreamEvent) :
    (processEvent st ev).frames = st.frames ++ textFramesOf ev := by
  unfold processEvent
  rw [dispatchEvent_frames]
  simp [captureRunId_frames]

lemma foldl_processEvent_frames :
    ∀ (events : List StreamEvent) (st : StreamState),
      (events.foldl processEvent st).frames = st.frames ++ events.flatMap textFramesOf := by
  intro events
  induction events with
  | nil => intro st; simp
  | cons ev evs ih =>
    intro st
    rw [List.foldl_cons, ih, processEvent_frames, List.flatMap_cons, List.append_assoc]

/-- The loop itself only ever writes `text` frames; the `tool_calls`, `done`
and `error` frames are written after the loop. -/
lemma textFramesOf_only_text (ev : StreamEvent) :
    ∀ f ∈ textFramesOf ev, ∃ s, f = Frame.text s := by
  unfold textFramesOf
  repeat' split
  all_goals simp

lemma streamStateOf_frames_only_text (events : List StreamEvent) :
    ∀ f ∈ (streamStateOf events).frames, ∃ s, f = Frame.text s := by
  intro f hf
  rw [streamStateOf, foldl_processEvent_frames] at hf
  simp only [initialStreamState, List.nil_append, List.mem_flatMap] at hf
  obtain ⟨ev, _, hmem⟩ := hf
  exact textFramesOf_only_text ev f hmem

lemma getLast?_append_singleton {α : Type} (l : List α) (a : α) :
    (l ++ [a]).getLast? = some a := by
  induction l with
  | nil => rfl
  | cons x xs ih =>
    rw [List.cons_append, List.getLast?_cons]
    simp [ih]

/-! ## Claim theorems -/

/-- **C1.** For the chat route (lines 860-880): when the message append throws
because a run is concurrently active and `extractActiveRunIdFromErrorMessage`
recovers the active run id from the error text, the coordinator cancels that
run, re-runs `cancelActiveRuns` for any stragglers, and retries the append
exactly once (two appends in the whole trace, no more); the retry succeeding
ends the phase without error, and the retry failing propagates its error as
the fatal error of the request with no further retry. -/
theorem chat_conflict_single_retry (a2 : AppendOutcome) (m : Option String) (rid : String)
    (h : extractActiveRunIdFromErrorMessage m = some rid) :
    (chatAppendTrace (AppendOutcome.fail m) a2 true).1
        = [ChatStep.cancelAll, ChatStep.appendMessage, ChatStep.cancelRun rid,
           ChatStep.cancelAll, ChatStep.appendMessage] ∧
    (chatAppendTrace (AppendOutcome.fail m) a2 true).1.count ChatStep.appendMessage = 2 ∧
    (chatAppendTrace (AppendOutcome.fail m) a2 true).2
        = (match a2 with
           | AppendOutcome.ok => none
           | AppendOutcome.fail m2 => some m2) := by
  cases a2 <;> simp [chatAppendTrace, h, List.count_cons]

/-- Witness for C1: a first append rejected with a conflict naming
`run_abc123` and a second conflict on the retry yield exactly the five-step
trace and surface the second failure as fatal. -/
theorem chat_conflict_single_retry_witness :
    (chatAppendTrace
        (AppendOutcome.fail (some "Cannot add messages to thread while a run run_abc123 is active."))
        (AppendOutcome.fail (some "second conflict")) true).1
      = [ChatStep.cancelAll, ChatStep.appendMessage, ChatStep.cancelRun "run_abc123",
         ChatStep.cancelAll, ChatStep.appendMessage] ∧
    (chatAppendTrace
        (AppendOutcome.fail (some "Cannot add messages to thread while a run run_abc123 is active."))
        (AppendOutcome.fail (some "second conflict")) true).1.count ChatStep.appendMessage = 2 ∧
    (chatAppendTrace
        (AppendOutcome.fail (some "Cannot add messages to thread while a run run_abc123 is active."))
        (AppendOutcome.fail (some "second conflict")) true).2
      = some (some "second conflict") :=
  chat_conflict_single_retry (AppendOutcome.fail (some "second conflict"))
    (some "Cannot add messages to thread while a run run_abc123 is active.")
    "run_abc123" (by decide)

/-- Recognizes a `retrieve` action in a cancellation trace. -/
def isRetrieveAction : CancelAction → Bool
  | CancelAction.retrieve _ => true
  | _ => false

lemma cancelPollLoop_retrieves_le :
    ∀ (statusAt : Nat → String) (id : String) (fuel i : Nat),
      (cancelPollLoop statusAt id i fuel).countP isRetrieveAction ≤ fuel := by
  intro statusAt id fuel
  induction fuel with
  | zero => intro i; simp [cancelPollLoop]
  | succ n ih =>
    intro i
    rw [cancelPollLoop]
    by_cases h : isRunActive (statusAt i) = true
    · simp only [h, if_true, List.countP_cons]
      have := ih (i + 1)
      simp [isRetrieveAction]
      omega
    · rw [if_neg h]
      simp [isRetrieveAction]

lemma cancelPollLoop_all_active :
    ∀ (statusAt : Nat → String) (id : String) (fuel i : Nat),
      (∀ k, isRunActive (statusAt k) = true) →
      (cancelPollLoop statusAt id i fuel).countP isRetrieveAction = fuel := by
  intro statusAt id fuel
  induction fuel with
  | zero => intro i _; simp [cancelPollLoop]
  | succ n ih =>
    intro i hall
    rw [cancelPollLoop, if_pos (hall i)]
    simp [List.countP_cons, isRetrieveAction, ih (i + 1) hall]

lemma cancelPollLoop_sleeps_250 :
    ∀ (statusAt : Nat → String) (id : String) (fuel i ms : Nat),
      CancelAction.sleep ms ∈ cancelPollLoop statusAt id i fuel → ms = 250 := by
  intro statusAt id fuel
  induction fuel with
  | zero => intro i ms h; simp [cancelPollLoop] at h
  | succ n ih =>
    intro i ms h
    rw [cancelPollLoop] at h
    by_cases hac : isRunActive (statusAt i) = true
    · rw [if_pos hac] at h
      simp only [List.mem_cons] at h
      rcases h with h | h | h
      · simp at h
      · simp at h; exact h
      · exact ih (i + 1) ms h
    · rw [if_neg hac] at h
      simp at h

/-- **C2.** `cancelActiveRuns` (lines 536-568): every run in the single list
response with a real id different from the caller-supplied exclusion id and an
active (`queued`/`in_progress`/`requires_action`) status is cancelled —
regardless of what the polls for earlier runs reported; after each
cancellation the run is polled at most 10 times, stopping immediately once a
poll reports a non-active status, consuming the full 10 attempts (and then
proceeding) when every poll reports an active status, with every sleep between
polls lasting 250 ms. -/
theorem cancelActiveRuns_cancels_each_and_polls_bounded
    (client : CancelClient) (excludeRunId : Option String) :
    (∀ r ∈ client.listData, client.hasList = true → client.hasCancel = true →
        ¬r.id = "" → ¬excludeRunId = some r.id → isRunActive r.status = true →
        CancelAction.cancel r.id ∈ cancelActiveRuns client excludeRunId) ∧
    (∀ (statusAt : Nat → String) (id : String) (i : Nat),
        (cancelPollLoop statusAt id i 10).countP isRetrieveAction ≤ 10) ∧
    (∀ (statusAt : Nat → String) (id : String) (i fuel : Nat),
        isRunActive (statusAt i) = false →
        cancelPollLoop statusAt id i (fuel + 1) = [CancelAction.retrieve id]) ∧
    (∀ (statusAt : Nat → String) (id : String) (i : Nat),
        (∀ k, isRunActive (statusAt k) = true) →
        (cancelPollLoop statusAt id i 10).countP isRetrieveAction = 10) ∧
    (∀ (statusAt : Nat → String) (id : String) (i fuel ms : Nat),
        CancelAction.sleep ms ∈ cancelPollLoop statusAt id i fuel → ms = 250) := by
  refine ⟨?_, fun statusAt id i => cancelPollLoop_retrieves_le statusAt id 10 i,
      ?_, fun statusAt id i h => cancelPollLoop_all_active statusAt id 10 i h,
      fun statusAt id i fuel ms h => cancelPollLoop_sleeps_250 statusAt id fuel i ms h⟩
  · intro r hr hlist hcancel hid hexcl hact
    unfold cancelActiveRuns
    rw [hlist]
    simp only [Bool.not_true, Bool.false_eq_true, if_false, List.mem_flatMap]
    refine ⟨r, hr, ?_⟩
    unfold cancelRunSteps
    rw [if_neg (by simpa using hid), if_neg (by simpa using hexcl), hact]
    simp [hcancel]
  · intro statusAt id i fuel h
    rw [cancelPollLoop, if_neg (by simp [h])]

/-- Witness for C2: a single listed active run `run_a` is cancelled. -/
theorem cancelActiveRuns_cancels_each_and_polls_bounded_witness :
    CancelAction.cancel "run_a" ∈
      cancelActiveRuns
        ⟨true, true, true, [⟨"run_a", "queued"⟩], fun _ _ => "cancelled"⟩ none :=
  (cancelActiveRuns_cancels_each_and_polls_bounded
      ⟨true, true, true, [⟨"run_a", "queued"⟩], fun _ _ => "cancelled"⟩ none).1
    ⟨"run_a", "queued"⟩ (by decide) rfl rfl (by decide) (by decide) (by decide)

lemma cancel_not_in_cancelPollLoop :
    ∀ (statusAt : Nat → String) (pid : String) (fuel i : Nat) (id : String),
      CancelAction.cancel id ∉ cancelPollLoop statusAt pid i fuel := by
  intro statusAt pid fuel
  induction fuel with
  | zero => intro i id h; simp [cancelPollLoop] at h
  | succ n ih =>
    intro i id h
    rw [cancelPollLoop] at h
    by_cases hac : isRunActive (statusAt i) = true
    · rw [if_pos hac] at h
      simp only [List.mem_cons] at h
      rcases h with h | h | h
      · simp at h
      · simp at h
      · exact ih (i + 1) id h
    · rw [if_neg hac] at h
      simp at h

lemma cancel_mem_cancelRunSteps (client : CancelClient) (excl : Option String)
    (r : ListedRun) (id : String)
    (h : CancelAction.cancel id ∈ cancelRunSteps client excl r) : id = r.id := by
  unfold cancelRunSteps at h
  repeat' split at h
  any_goals simp at h
  any_goals assumption
  rcases h with h | h
  · exact h
  · exact absurd h (cancel_not_in_cancelPollLoop _ _ 10 0 id)

/-- **C10.** `cancelActiveRuns` works off a single
`runs.list(threadId, with limit 10)` response (line 541), so against a thread whose full
run list is `allRuns` every cancel it issues targets one of the first
`runsListLimit = 10` listed runs, and a run whose id is not among those listed
(at most) 10 ids is never cancelled, active or not. -/
theorem cancelActiveRuns_only_listed_runs (allRuns : List ListedRun)
    (hasCancel hasRetrieve : Bool) (retrieveStatus : String → Nat → String)
    (excludeRunId : Option String) :
    (∀ id, CancelAction.cancel id ∈
        cancelActiveRunsOn allRuns hasCancel hasRetrieve retrieveStatus excludeRunId →
      id ∈ (allRuns.take runsListLimit).map (fun r => r.id)) ∧
    (∀ r ∈ allRuns, r.id ∉ (allRuns.take runsListLimit).map (fun r => r.id) →
      CancelAction.cancel r.id ∉
        cancelActiveRunsOn allRuns hasCancel hasRetrieve retrieveStatus excludeRunId) := by
  have main : ∀ id, CancelAction.cancel id ∈
      cancelActiveRunsOn allRuns hasCancel hasRetrieve retrieveStatus excludeRunId →
      id ∈ (allRuns.take runsListLimit).map (fun r => r.id) := by
    intro id h
    unfold cancelActiveRunsOn cancelActiveRuns at h
    simp only [Bool.not_true, Bool.false_eq_true, if_false, List.mem_flatMap] at h
    obtain ⟨r, hr, hmem⟩ := h
    rw [List.mem_map]
    exact ⟨r, hr, (cancel_mem_cancelRunSteps _ _ r id hmem).symm⟩
  exact ⟨main, fun r _ hnot hmem => hnot (main r.id hmem)⟩

/-- Witness for C10: with eleven listed runs, the eleventh (`run_k11`), though
active, is beyond the 10-entry cap and is never cancelled. -/
theorem cancelActiveRuns_only_listed_runs_witness :
    CancelAction.cancel "run_k11" ∉
      cancelActiveRunsOn
        [⟨"run_k01", "queued"⟩, ⟨"run_k02", "queued"⟩, ⟨"run_k03", "queued"⟩,
         ⟨"run_k04", "queued"⟩, ⟨"run_k05", "queued"⟩, ⟨"run_k06", "queued"⟩,
         ⟨"run_k07", "queued"⟩, ⟨"run_k08", "queued"⟩, ⟨"run_k09", "queued"⟩,
         ⟨"run_k10", "queued"⟩, ⟨"run_k11", "queued"⟩]
        true true (fun _ _ => "queued") none :=
  (cancelActiveRuns_only_listed_runs
      [⟨"run_k01", "queued"⟩, ⟨"run_k02", "queued"⟩, ⟨"run_k03", "queued"⟩,
       ⟨"run_k04", "queued"⟩, ⟨"run_k05", "queued"⟩, ⟨"run_k06", "queued"⟩,
       ⟨"run_k07", "queued"⟩, ⟨"run_k08", "queued"⟩, ⟨"run_k09", "queued"⟩,
       ⟨"run_k10", "queued"⟩, ⟨"run_k11", "queued"⟩]
      true true (fun _ _ => "queued") none).2
    ⟨"run_k11", "queued"⟩ (by decide) (by decide)

lemma retrieveLoop_retrieves_le (polls : Nat → Option RetrievedRun) :
    ∀ (fuel i : Nat), (retrieveLoop polls i fuel).retrieves ≤ fuel := by
  intro fuel
  induction fuel with
  | zero => intro i; simp [retrieveLoop]
  | succ n ih =>
    intro i
    rw [retrieveLoop]
    rcases hp : (polls i).bind (fun run => run.usage) with _ | u
    all_goals simp only [hp]
    · split
      · simp
      · simpa using ih (i + 1)
    · split
      · simp
      · split
        · simp
        · simpa using ih (i + 1)

/-- **C5.** `retrieveRunUsageWithRetry` (lines 486-531): the loop performs at
most 6 retrieves; with an empty run id the reconciliation is skipped entirely
(no retrieves, no sleeps, usage degrades to none, reported as zero by the
caller); any iteration whose poll carries a non-zero token figure returns that
usage immediately with exactly one retrieve from that point and no further
sleeps; and any iteration whose poll reports an active
(`queued`/`in_progress`/`requires_action`) status without usable usage
returns no usage immediately, without consuming the remaining attempts. -/
theorem retrieveRunUsage_bounded_short_circuit (hasRetrieve : Bool) (runId : String)
    (polls : Nat → Option RetrievedRun) :
    ((retrieveRunUsageWithRetry hasRetrieve runId polls).retrieves ≤ 6) ∧
    (runId = "" → retrieveRunUsageWithRetry hasRetrieve runId polls = ⟨none, 0, 0⟩) ∧
    (∀ (i fuel : Nat) (run : RetrievedRun) (u : RunUsage),
        polls i = some run → run.usage = some u → usageNonZero u = true →
        retrieveLoop polls i (fuel + 1)
          = ⟨some ⟨u.prompt_tokens, u.completion_tokens⟩, 1, 0⟩) ∧
    (∀ (i fuel : Nat) (run : RetrievedRun),
        polls i = some run → (∀ u, run.usage = some u → usageNonZero u = false) →
        isRunActive run.status = true →
        retrieveLoop polls i (fuel + 1) = ⟨none, 1, 0⟩) := by
  refine ⟨?_, ?_, ?_, ?_⟩
  · unfold retrieveRunUsageWithRetry
    split
    · simp
    · exact retrieveLoop_retrieves_le polls 6 0
  · intro h
    unfold retrieveRunUsageWithRetry
    rw [if_pos (by simp [h])]
  · intro i fuel run u hp hu hnz
    rw [retrieveLoop]
    simp [hp, hu, hnz]
  · intro i fuel run hp hu hact
    rw [retrieveLoop]
    rcases hcase : run.usage with _ | u
    · simp [hp, hcase, hact]
    · simp [hp, hcase, hact, hu u hcase]

/-- Witness for C5: skipping on an empty run id, and the one-retrieve
short-circuit when a poll carries non-zero usage. -/
theorem retrieveRunUsage_bounded_short_circuit_witness :
    retrieveRunUsageWithRetry true "" (fun _ => some ⟨"completed", some ⟨5, 7⟩⟩)
        = ⟨none, 0, 0⟩ ∧
    retrieveLoop (fun _ => some ⟨"completed", some ⟨5, 7⟩⟩) 2 4 = ⟨some ⟨5, 7⟩, 1, 0⟩ :=
  ⟨(retrieveRunUsage_bounded_short_circuit true ""
      (fun _ => some ⟨"completed", some ⟨5, 7⟩⟩)).2.1 rfl,
   (retrieveRunUsage_bounded_short_circuit true ""
      (fun _ => some ⟨"completed", some ⟨5, 7⟩⟩)).2.2.1 2 3 ⟨"completed", some ⟨5, 7⟩⟩
     ⟨5, 7⟩ rfl rfl (by decide)⟩

/-- The run id captured by the relay over `events` (returned in the `done`
frame and in the result record). -/
def capturedRunId (events : List StreamEvent) : String :=
  (streamStateOf events).runId

/-- **C3.** `handleStream` (lines 1129-1131 and 1142-1153): in every execution
the output sequence is ended (`res.end()`), and the last frame written is the
terminal `done` frame carrying the captured run id (possibly empty) when the
provider event sequence ends normally, or the terminal `error` frame carrying
the fault message when consumption aborts with a transport fault — the output
never remains open after the source ends or faults. -/
theorem handleStream_terminal_frame (events : List StreamEvent) (fault : Option String) :
    (handleStream events fault).1.ended = true ∧
    (handleStream events fault).1.frames.getLast?
      = some (match fault with
              | none => Frame.done (capturedRunId events)
              | some m => Frame.error m) := by
  cases fault with
  | none =>
    refine ⟨rfl, ?_⟩
    show ((streamStateOf events).frames ++ _ ++ [Frame.done (streamStateOf events).runId]).getLast?
        = some (Frame.done (capturedRunId events))
    rw [getLast?_append_singleton]
    rfl
  | some m =>
    exact ⟨rfl, getLast?_append_singleton _ _⟩

/-- The finalized calls of a relay state, listed by ascending accumulator
index. -/
def finalizedByIndex (toolCalls : List (Option AccToolCall)) : List AccToolCall :=
  (List.range toolCalls.length).filterMap fun i => keepFinalized (toolCalls.getD i none)

lemma filterMap_eq_range_getD (g : Option AccToolCall → Option AccToolCall) :
    ∀ l : List (Option AccToolCall),
      l.filterMap g = (List.range l.length).filterMap (fun i => g (l.getD i none)) := by
  intro l
  induction l with
  | nil => simp
  | cons x xs ih =>
    have hmap : List.filterMap (fun i => g ((x :: xs).getD i none))
          (List.map Nat.succ (List.range xs.length))
        = List.filterMap (fun i => g (xs.getD i none)) (List.range xs.length) := by
      rw [List.filterMap_map]
      rfl
    rw [List.length_cons, List.range_succ_eq_map, List.filterMap_cons, List.filterMap_cons,
      hmap, ← ih]
    rfl

lemma finalToolCallsOf_eq_byIndex (toolCalls : List (Option AccToolCall)) :
    finalToolCallsOf toolCalls = finalizedByIndex toolCalls :=
  filterMap_eq_range_getD keepFinalized toolCalls

lemma mem_finalToolCallsOf_id_ne (toolCalls : List (Option AccToolCall))
    (c : AccToolCall) (hc : c ∈ finalToolCallsOf toolCalls) : ¬c.id = "" := by
  unfold finalToolCallsOf at hc
  rw [List.mem_filterMap] at hc
  obtain ⟨t, _, ht⟩ := hc
  cases t with
  | none => simp [keepFinalized] at ht
  | some c0 =>
    simp only [keepFinalized] at ht
    by_cases h0 : (c0.id != "") = true
    · rw [if_pos h0] at ht
      injection ht with ht
      subst ht
      simpa using h0
    · rw [if_neg h0] at ht
      exact absurd ht (by simp)

/-- **C4.** `handleStream` (lines 1122-1127, 1134-1140, 1147-1153): any
`tool_calls` frame in the output lists exactly the finalized calls with the
captured run id; the finalized calls are the accumulator slots with a
non-empty id enumerated in ascending index order, every empty-id slot being
dropped; every listed call has a non-empty id; and the `toolCallCount`
returned to the caller equals the number of non-empty-id calls, in both the
normal and the faulted ending. -/
theorem handleStream_tool_calls_frame_sound (events : List StreamEvent)
    (fault : Option String) :
    (∀ (rid : String) (calls : List AccToolCall),
        Frame.toolCallsMsg rid calls ∈ (handleStream events fault).1.frames →
        rid = capturedRunId events ∧
        calls = finalToolCallsOf (streamStateOf events).toolCalls) ∧
    finalToolCallsOf (streamStateOf events).toolCalls
        = finalizedByIndex (streamStateOf events).toolCalls ∧
    (∀ c ∈ finalToolCallsOf (streamStateOf events).toolCalls, ¬c.id = "") ∧
    (handleStream events fault).2.toolCallCount
        = (finalToolCallsOf (streamStateOf events).toolCalls).length := by
  refine ⟨?_, finalToolCallsOf_eq_byIndex _,
      fun c hc => mem_finalToolCallsOf_id_ne _ c hc, ?_⟩
  · intro rid calls hmem
    cases fault with
    | none =>
      simp only [handleStream] at hmem
      rw [List.append_assoc, List.mem_append] at hmem
      rcases hmem with hmem | hmem
      · obtain ⟨s, hs⟩ := streamStateOf_frames_only_text events _ hmem
        exact absurd hs (by simp)
      · rw [List.mem_append] at hmem
        rcases hmem with hmem | hmem
        · split at hmem
          · rw [List.mem_singleton] at hmem
            injection hmem with h1 h2
            exact ⟨h1, h2⟩
          · simp at hmem
        · rw [List.mem_singleton] at hmem
          exact absurd hmem (by simp)
    | some m =>
      simp only [handleStream] at hmem
      rw [List.mem_append] at hmem
      rcases hmem with hmem | hmem
      · obtain ⟨s, hs⟩ := streamStateOf_frames_only_text events _ hmem
        exact absurd hs (by simp)
      · rw [List.mem_singleton] at hmem
        exact absurd hmem (by simp)
  · cases fault <;> rfl

/-- Witness for C4: a stream with one complete fragment and one id-less
fragment emits exactly the finalized call of the first. -/
theorem handleStream_tool_calls_frame_sound_witness :
    "" = capturedRunId
          [mkStepDeltaEvent [⟨0, "function", "call_1", "fn", "arg"⟩,
                             ⟨1, "function", "", "ghost", ""⟩]] ∧
    [⟨"call_1", "function", "fn", "arg"⟩]
      = finalToolCallsOf
          (streamStateOf
            [mkStepDeltaEvent [⟨0, "function", "call_1", "fn", "arg"⟩,
                               ⟨1, "function", "", "ghost", ""⟩]]).toolCalls :=
  (handleStream_tool_calls_frame_sound
      [mkStepDeltaEvent [⟨0, "function", "call_1", "fn", "arg"⟩,
                         ⟨1, "function", "", "ghost", ""⟩]] none).1
    "" [⟨"call_1", "function", "fn", "arg"⟩] (by decide)

/-- Recognizes the `tool_calls` frame. -/
def isToolCallsFrame : Frame → Bool
  | Frame.toolCallsMsg _ _ => true
  | _ => false

/-- **C9.** `handleStream` (lines 1122-1131): the `tool_calls` frame is
written exactly when the stream ends normally and at least one accumulated
call has a non-empty id; with zero finalized calls (or on a transport fault)
no `tool_calls` frame is written at all and the client receives only the text
frames and the terminal `done` (or `error`) frame. -/
theorem tool_calls_frame_emission_iff (events : List StreamEvent) (fault : Option String) :
    ((handleStream events fault).1.frames.any isToolCallsFrame)
      = (fault.isNone && !(finalToolCallsOf (streamStateOf events).toolCalls).isEmpty) := by
  have htext : (streamStateOf events).frames.any isToolCallsFrame = false := by
    rw [List.any_eq_false]
    intro f hf
    obtain ⟨s, hs⟩ := streamStateOf_frames_only_text events f hf
    subst hs
    simp [isToolCallsFrame]
  cases fault with
  | none =>
    simp only [handleStream, List.any_append, htext, Bool.false_or, Option.isNone_none,
      Bool.true_and]
    split
    · next h =>
      have : ¬(finalToolCallsOf (streamStateOf events).toolCalls).isEmpty = true := by
        rw [List.isEmpty_iff]
        intro hnil
        rw [hnil] at h
        simp at h
      simp [isToolCallsFrame, this]
    · next h =>
      have : (finalToolCallsOf (streamStateOf events).toolCalls).isEmpty = true := by
        rw [List.isEmpty_iff, ← List.length_eq_zero]
        omega
      simp [isToolCallsFrame, this]
  | some m =>
    simp [handleStream, List.any_append, htext, isToolCallsFrame]

/-- **C6 counterexample.** Accumulation is *not* invariant under arbitrary
reordering of the fragments of one index: two name fragments for index 0
concatenate in arrival order, so swapping them changes the reconstructed name
(`read_f` then `ile` gives `read_file`; swapped it gives `ileread_f`). -/
theorem toolcall_accumulation_order_counterexample :
    ¬(([⟨0, "function", "call_1", "read_f", ""⟩, ⟨0, "function", "", "ile", ""⟩]
          : List ToolCallFragment).foldl applyFragment []
        = ([⟨0, "function", "", "ile", ""⟩, ⟨0, "function", "call_1", "read_f", ""⟩]
          : List ToolCallFragment).foldl applyFragment []) := by decide

/-- **C6 (amended).** Accumulation is keyed by index: the final call at each
index is determined solely by the subsequence of fragments carrying that
index, in their arrival order — so any interleaving of the fragment stream
that preserves each index's internal order reconstructs the same final call
for every index.  (Reordering fragments *within* one index may change the
result, as the counterexample shows.) -/
theorem toolcall_accumulation_keyed_by_index :
    (∀ (l : List ToolCallFragment) (acc : List (Option AccToolCall)) (i : Nat),
        (l.foldl applyFragment acc).getD i none
          = ((l.filter fun tc => tc.index == i).foldl applyFragment acc).getD i none) ∧
    (∀ (l₁ l₂ : List ToolCallFragment) (acc : List (Option AccToolCall)),
        (∀ j, l₁.filter (fun tc => tc.index == j) = l₂.filter (fun tc => tc.index == j)) →
        ∀ i, (l₁.foldl applyFragment acc).getD i none
          = (l₂.foldl applyFragment acc).getD i none) := by
  have keyed : ∀ (l : List ToolCallFragment) (acc : List (Option AccToolCall)) (i : Nat),
      (l.foldl applyFragment acc).getD i none
        = ((l.filter fun tc => tc.index == i).foldl applyFragment acc).getD i none := by
    intro l acc i
    rw [getD_foldl_applyFragment, getD_foldl_applyFragment]
    congr 1
    rw [List.filter_filter]
    simp
  refine ⟨keyed, fun l₁ l₂ acc h i => ?_⟩
  rw [keyed l₁ acc i, keyed l₂ acc i, h i]

/-- Witness for C6 (amended): fragments for indices 0 and 1 delivered in
either interleaving reconstruct the same call at index 0. -/
theorem toolcall_accumulation_keyed_by_index_witness :
    (([⟨0, "function", "call_a", "alpha", ""⟩, ⟨1, "function", "call_b", "beta", ""⟩]
        : List ToolCallFragment).foldl applyFragment []).getD 0 none
      = (([⟨1, "function", "call_b", "beta", ""⟩, ⟨0, "function", "call_a", "alpha", ""⟩]
        : List ToolCallFragment).foldl applyFragment []).getD 0 none :=
  toolcall_accumulation_keyed_by_index.2
    [⟨0, "function", "call_a", "alpha", ""⟩, ⟨1, "function", "call_b", "beta", ""⟩]
    [⟨1, "function", "call_b", "beta", ""⟩, ⟨0, "function", "call_a", "alpha", ""⟩]
    []
    (by
      intro j
      by_cases e0 : j = 0
      · subst e0; decide
      · by_cases e1 : j = 1
        · subst e1; decide
        · have h0 : ((0 : Nat) == j) = false := beq_eq_false_iff_ne.mpr (Ne.symm e0)
          have h1 : ((1 : Nat) == j) = false := beq_eq_false_iff_ne.mpr (Ne.symm e1)
          simp [List.filter_cons, h0, h1])
    0

/-- **C7.** Scenario D: two fragments for tool-call index 0 — first carrying
id `call_1`, name `read_f` and the opening of the JSON arguments, then an
id-less fragment carrying `ile` and the rest of the arguments — reconstruct
to the single final call with id `call_1`, name `read_file` and the complete
argument string: name/argument fragments concatenate in arrival order and the
id is the one carried by the first fragment. -/
theorem toolcall_fragment_scenario_d :
    finalToolCallsOf (streamStateOf
        [mkStepDeltaEvent [⟨0, "function", "call_1", "read_f", "\x7b\"path\":"⟩],
         mkStepDeltaEvent [⟨0, "function", "", "ile", "\"a.txt\"\x7d"⟩]]).toolCalls
      = [⟨"call_1", "function", "read_file", "\x7b\"path\":\"a.txt\"\x7d"⟩] := by decide

/-- **C8 counterexample.** Session deletion does not report `Unauthorized`
for a wrong-owner session: with a session owned by user 1 and caller 2 the
delete route answers the generic 404 `Session not found`, not a 403. -/
theorem delete_session_wrong_owner_counterexample :
    deleteSessionRoute (some ⟨"asst_1", 1, "gpt-4o"⟩) 2 = DeleteResult.notFound ∧
    (deleteSessionRoute (some ⟨"asst_1", 1, "gpt-4o"⟩) 2).statusCode = 404 ∧
    ¬(deleteSessionRoute (some ⟨"asst_1", 1, "gpt-4o"⟩) 2).statusCode = 403 := by decide

/-- **C8 (amended).** When the session exists but its owner differs from the
calling principal, chat and tool-output submission fail synchronously with
`Unauthorized` (403) before the event stream is opened; session deletion
instead rejects the request with the generic 404 `Session not found` answer
(wrong ownership is not distinguished from absence), also synchronously. -/
theorem wrong_owner_synchronous_rejections (tid msg rid : String) (touts : List String)
    (s : SessionEntry) (uid : Nat) (hown : ¬s.userId = uid)
    (htid : ¬tid = "") (hmsg : ¬msg = "") (hrid : ¬rid = "") :
    (chatPre tid msg (some s) uid = RoutePre.unauthorized ∧
     (chatPre tid msg (some s) uid).streamOpened = false ∧
     (chatPre tid msg (some s) uid).statusCode = 403) ∧
    (toolOutputsPre tid rid (some touts) (some s) uid = RoutePre.unauthorized ∧
     (toolOutputsPre tid rid (some touts) (some s) uid).streamOpened = false ∧
     (toolOutputsPre tid rid (some touts) (some s) uid).statusCode = 403) ∧
    (deleteSessionRoute (some s) uid = DeleteResult.notFound ∧
     (deleteSessionRoute (some s) uid).statusCode = 404) := by
  have hchat : chatPre tid msg (some s) uid = RoutePre.unauthorized := by
    unfold chatPre
    rw [if_neg (by simp [htid, hmsg])]
    show (if (s.userId != uid) = true then RoutePre.unauthorized else RoutePre.proceed)
        = RoutePre.unauthorized
    rw [if_pos (by simpa using hown)]
  have htool : toolOutputsPre tid rid (some touts) (some s) uid = RoutePre.unauthorized := by
    unfold toolOutputsPre
    rw [if_neg (by simp [htid, hrid])]
    show (if (s.userId != uid) = true then RoutePre.unauthorized else RoutePre.proceed)
        = RoutePre.unauthorized
    rw [if_pos (by simpa using hown)]
  have hdel : deleteSessionRoute (some s) uid = DeleteResult.notFound := by
    show (if (s.userId == uid) = true then DeleteResult.success else DeleteResult.notFound)
        = DeleteResult.notFound
    rw [if_neg (by simp [hown])]
  exact ⟨⟨hchat, by rw [hchat]; rfl, by rw [hchat]; rfl⟩,
         ⟨htool, by rw [htool]; rfl, by rw [htool]; rfl⟩,
         ⟨hdel, by rw [hdel]; rfl⟩⟩

/-- Witness for C8 (amended): a session owned by user 1, a caller with id 2,
and non-empty body fields. -/
theorem wrong_owner_synchronous_rejections_witness :
    (chatPre "t1" "hi" (some ⟨"asst_1", 1, "gpt"⟩) 2 = RoutePre.unauthorized ∧
     (chatPre "t1" "hi" (some ⟨"asst_1", 1, "gpt"⟩) 2).streamOpened = false ∧
     (chatPre "t1" "hi" (some ⟨"asst_1", 1, "gpt"⟩) 2).statusCode = 403) ∧
    (toolOutputsPre "t1" "run_1" (some []) (some ⟨"asst_1", 1, "gpt"⟩) 2
        = RoutePre.unauthorized ∧
     (toolOutputsPre "t1" "run_1" (some []) (some ⟨"asst_1", 1, "gpt"⟩) 2).streamOpened
        = false ∧
     (toolOutputsPre "t1" "run_1" (some []) (some ⟨"asst_1", 1, "gpt"⟩) 2).statusCode = 403) ∧
    (deleteSessionRoute (some ⟨"asst_1", 1, "gpt"⟩) 2 = DeleteResult.notFound ∧
     (deleteSessionRoute (some ⟨"asst_1", 1, "gpt"⟩) 2).statusCode = 404) :=
  wrong_owner_synchronous_rejections "t1" "hi" "run_1" [] ⟨"asst_1", 1, "gpt"⟩ 2
    (by decide) (by decide) (by decide) (by decide)

end LlmRoutes
